import Mathlib

/-!
Shallow embedding of the life-tracking application in `src/Website.jsx`.

Modelling conventions:
* JS millisecond timestamps (`Date.now()`, `toISOString()`) are modelled as
  integers of type `Time`.
* JS calendar-date strings (the values of `Date.prototype.toDateString()`)
  are modelled as integers of type `CalDate` (one integer per calendar day;
  `toDateString` is injective on days and date strings are only ever compared
  for equality or shifted by whole days).
* JS numbers used as money amounts and sleep durations are modelled as
  rationals (`ℚ`); ids and the reward counter as integers.
* A JS field that may be `null`/absent is modelled as an `Option`.
* React state setters are modelled by explicit state passing: every mutator
  is a function `Store → Store`, parameterised by the wall clock readings
  (`now : Time`, `today : CalDate`) it takes at call time.
-/

namespace Website

/-- Millisecond timestamp, modelling `Date.now()` / ISO timestamp strings. -/
abbrev Time := Int

/-- Calendar day, modelling the result of `Date.prototype.toDateString()`. -/
abbrev CalDate := Int

/-- A habit record as created by `addHabit` (src/Website.jsx lines 172-180). -/
structure Habit where
  id : Int
  name : String
  completedDates : List CalDate
  createdAt : Time
deriving DecidableEq, Repr

/-- A todo record as created by `addTodo` (lines 198-207); `createdAt` is
kept at calendar-day granularity because the code only ever compares
`new Date(t.createdAt).toDateString()` for equality. -/
structure Todo where
  id : Int
  task : String
  completed : Bool
  photo : Option String
  createdAt : CalDate
deriving DecidableEq, Repr

/-- An expense record as created by `addExpense` (lines 229-238). -/
structure Expense where
  id : Int
  description : String
  amount : ℚ
  category : String
  date : CalDate
deriving DecidableEq, Repr

/-- A note record as created by `addNote` (lines 240-248). -/
structure Note where
  id : Int
  title : String
  content : String
  createdAt : Time
deriving DecidableEq, Repr

/-- A memory record as created by `addMemory` (lines 250-262). -/
structure Memory where
  id : Int
  title : String
  photo : String
  createdAt : Time
deriving DecidableEq, Repr

/-- A loan record as created by `addLoan` (lines 264-274); `dateReturned`
is absent (`none`) at creation and set/cleared by `toggleLoanReturn`. -/
structure Loan where
  id : Int
  personName : String
  amount : ℚ
  note : String
  returned : Bool
  dateGiven : Time
  dateReturned : Option Time
deriving DecidableEq, Repr

/-- A sleep-session record as created by `addSleepSession` (lines 286-294). -/
structure SleepSession where
  id : Int
  duration : ℚ
  isAfternoon : Bool
  date : CalDate
deriving DecidableEq, Repr

/-- The whole application state: the eight `useLocalStorage` pieces of
state declared at lines 112-119 of src/Website.jsx. -/
structure Store where
  habits : List Habit
  todos : List Todo
  expenses : List Expense
  notes : List Note
  memories : List Memory
  loans : List Loan
  rewards : Int
  sleepSessions : List SleepSession
deriving DecidableEq, Repr

/-- The initial state: every collection starts `[]` and rewards `0`
(the `useLocalStorage` defaults at lines 112-119). -/
def emptyStore : Store :=
  { habits := [], todos := [], expenses := [], notes := [], memories := []
    loans := [], rewards := 0, sleepSessions := [] }

/-! ### Mutators -/

/-- `addHabit(name)` (lines 172-180): appends a fresh habit with
`id = Date.now()`, empty `completedDates`, `createdAt = now`. -/
def addHabit (now : Time) (name : String) (s : Store) : Store :=
  { s with habits := s.habits ++
      [{ id := now, name := name, completedDates := [], createdAt := now }] }

/-- The body of the `prev.map` callback in `toggleHabit` (lines 184-195),
returning the updated habit together with the reward increment performed
by the `setRewards` call in the add branch. -/
def toggleHabitEntry (today : CalDate) (id : Int) (h : Habit) : Habit × Int :=
  if h.id = id then
    if today ∈ h.completedDates then
      ({ h with completedDates := h.completedDates.filter (fun d => d ≠ today) }, 0)
    else
      ({ h with completedDates := h.completedDates ++ [today] }, 10)
  else (h, 0)

/-- `toggleHabit(id)` (lines 182-196): maps `toggleHabitEntry` over the
habits; the rewards counter receives the sum of the `setRewards`
increments fired inside the map. -/
def toggleHabit (today : CalDate) (id : Int) (s : Store) : Store :=
  { s with
    habits := s.habits.map (fun h => (toggleHabitEntry today id h).1)
    rewards := s.rewards + (s.habits.map (fun h => (toggleHabitEntry today id h).2)).sum }

/-- `addTodo(task)` (lines 198-207): appends a fresh incomplete todo with
`id = Date.now()`, no photo, created today. -/
def addTodo (now : Time) (today : CalDate) (task : String) (s : Store) : Store :=
  { s with todos := s.todos ++
      [{ id := now, task := task, completed := false, photo := none, createdAt := today }] }

/-- The body of the `prev.map` callback in `toggleTodo` (lines 210-216):
a matching incomplete todo flips to complete with reward `+5`; a matching
complete todo flips back with no reward; others are untouched. -/
def toggleTodoEntry (id : Int) (t : Todo) : Todo × Int :=
  if t.id = id ∧ t.completed = false then
    ({ t with completed := !t.completed }, 5)
  else if t.id = id then
    ({ t with completed := !t.completed }, 0)
  else (t, 0)

/-- `toggleTodo(id)` (lines 209-217). -/
def toggleTodo (id : Int) (s : Store) : Store :=
  { s with
    todos := s.todos.map (fun t => (toggleTodoEntry id t).1)
    rewards := s.rewards + (s.todos.map (fun t => (toggleTodoEntry id t).2)).sum }

/-- `addExpense(description, amount, category)` (lines 229-238); `amount`
is the number produced by `parseFloat` on the form input. -/
def addExpense (now : Time) (today : CalDate) (description : String)
    (amount : ℚ) (category : String) (s : Store) : Store :=
  { s with expenses := s.expenses ++
      [{ id := now, description := description, amount := amount
         category := category, date := today }] }

/-- `addLoan(personName, amount, note)` (lines 264-274): fresh loan,
`returned = false`, `dateGiven = now`, no `dateReturned` field yet. -/
def addLoan (now : Time) (personName : String) (amount : ℚ) (note : String)
    (s : Store) : Store :=
  { s with loans := s.loans ++
      [{ id := now, personName := personName, amount := amount, note := note
         returned := false, dateGiven := now, dateReturned := none }] }

/-- `toggleLoanReturn(id)` (lines 276-284): flips `returned` on the
matching loan; `dateReturned` becomes `now` exactly when the old
`returned` was false, else `null`. -/
def toggleLoanReturn (now : Time) (id : Int) (s : Store) : Store :=
  { s with loans := s.loans.map (fun l =>
      if l.id = id then
        { l with returned := !l.returned
                 dateReturned := if !l.returned then some now else none }
      else l) }

/-- `addSleepSession(duration, isAfternoon)` (lines 286-294). -/
def addSleepSession (now : Time) (today : CalDate) (duration : ℚ)
    (isAfternoon : Bool) (s : Store) : Store :=
  { s with sleepSessions := s.sleepSessions ++
      [{ id := now, duration := duration, isAfternoon := isAfternoon, date := today }] }

/-- The keys of the `setters` table in `deleteItem` (lines 296-311). -/
inductive ItemType where
  | habit | todo | expense | note | memory | loan | sleep
deriving DecidableEq, Repr

/-- `deleteItem(type, id)` (lines 296-311): filters the matching id out of
the collection selected by `type`. -/
def deleteItem (ty : ItemType) (id : Int) (s : Store) : Store :=
  match ty with
  | .habit => { s with habits := s.habits.filter (fun x => x.id ≠ id) }
  | .todo => { s with todos := s.todos.filter (fun x => x.id ≠ id) }
  | .expense => { s with expenses := s.expenses.filter (fun x => x.id ≠ id) }
  | .note => { s with notes := s.notes.filter (fun x => x.id ≠ id) }
  | .memory => { s with memories := s.memories.filter (fun x => x.id ≠ id) }
  | .loan => { s with loans := s.loans.filter (fun x => x.id ≠ id) }
  | .sleep => { s with sleepSessions := s.sleepSessions.filter (fun x => x.id ≠ id) }

/-- The ids present in the collection `deleteItem ty` targets. -/
def collectionIds (ty : ItemType) (s : Store) : List Int :=
  match ty with
  | .habit => s.habits.map Habit.id
  | .todo => s.todos.map Todo.id
  | .expense => s.expenses.map Expense.id
  | .note => s.notes.map Note.id
  | .memory => s.memories.map Memory.id
  | .loan => s.loans.map Loan.id
  | .sleep => s.sleepSessions.map SleepSession.id

/-! ### Snapshot codec -/

/-- A parsed import document: each of the nine top-level keys of the export
format is present (`some`) or absent (`none`). A key present with the JSON
value `null` behaves exactly like an absent key in `setAllData` (both are
falsy), so it is also modelled by `none`. -/
structure ImportDoc where
  habits : Option (List Habit) := none
  todos : Option (List Todo) := none
  expenses : Option (List Expense) := none
  notes : Option (List Note) := none
  memories : Option (List Memory) := none
  loans : Option (List Loan) := none
  rewards : Option Int := none
  sleepSessions : Option (List SleepSession) := none
  exportDate : Option Time := none
deriving DecidableEq, Repr

/-- The `allData` export object (lines 149-159): all eight pieces of state
plus an `exportDate` stamp. -/
def allData (now : Time) (s : Store) : ImportDoc :=
  { habits := some s.habits, todos := some s.todos, expenses := some s.expenses
    notes := some s.notes, memories := some s.memories, loans := some s.loans
    rewards := some s.rewards, sleepSessions := some s.sleepSessions
    exportDate := some now }

/-- `setAllData(newData)` (lines 161-170): each setter runs under a JS
truthiness guard `if (newData.key)`. A present array is always truthy
(even `[]`), so a present collection always replaces the old one; the
numeric `rewards` is truthy only when nonzero, so a present `rewards` of
`0` is skipped. -/
def setAllData (d : ImportDoc) (s : Store) : Store :=
  { habits := match d.habits with | some v => v | none => s.habits
    todos := match d.todos with | some v => v | none => s.todos
    expenses := match d.expenses with | some v => v | none => s.expenses
    notes := match d.notes with | some v => v | none => s.notes
    memories := match d.memories with | some v => v | none => s.memories
    loans := match d.loans with | some v => v | none => s.loans
    rewards := match d.rewards with
      | some r => if r ≠ 0 then r else s.rewards
      | none => s.rewards
    sleepSessions := match d.sleepSessions with | some v => v | none => s.sleepSessions }

/-- The outcome of `JSON.parse` plus the object check inside `importData`
(lines 86-105): the text fails to parse, parses to a non-object (or
`null`), or parses to an object whose recognised keys form an `ImportDoc`. -/
inductive ImportPayload where
  | malformed
  | nonObject
  | object (d : ImportDoc)
deriving DecidableEq, Repr

/-- `importData` (lines 86-105): on parse failure or a non-object payload
the `catch` branch shows the error alert and the store is untouched;
otherwise `setAllData` merges the document. Returns the new store and
whether the error alert fired. -/
def importData (p : ImportPayload) (s : Store) : Store × Bool :=
  match p with
  | .malformed => (s, true)
  | .nonObject => (s, true)
  | .object d => (setAllData d s, false)

/-! ### Aggregators -/

/-- `completedTodosCount` (lines 125-128). -/
def completedTodosCount (s : Store) : Nat :=
  (s.todos.filter (fun t => t.completed)).length

/-- `pendingLoansAmount` (lines 130-133): amounts of not-returned loans,
summed with `reduce`. -/
def pendingLoansAmount (loans : List Loan) : ℚ :=
  (loans.filter (fun l => !l.returned)).foldl (fun sum l => sum + l.amount) 0

/-- `totalLent` (line 874): sum of all loan amounts. -/
def totalLent (loans : List Loan) : ℚ :=
  loans.foldl (fun sum l => sum + l.amount) 0

/-- `totalReturned` (line 875): sum of amounts of returned loans. -/
def totalReturned (loans : List Loan) : ℚ :=
  (loans.filter (fun l => l.returned)).foldl (fun sum l => sum + l.amount) 0

/-- `totalExpenses` (lines 135-138). -/
def totalExpenses (s : Store) : ℚ :=
  s.expenses.foldl (fun sum e => sum + e.amount) 0

/-- One record pushed onto `last7Days` by `getChartData` (lines 338-344).
The source stores a formatted label `date.toLocaleDateString(...)`; the
label is an injective image of the day, which we keep directly. -/
structure ChartPoint where
  date : CalDate
  habitsDone : Nat
  tasksDone : Nat
  expensesSum : ℚ
  sleepSum : ℚ
deriving DecidableEq, Repr

/-- The per-day body of the `getChartData` loop (lines 321-344). -/
def chartPointFor (s : Store) (d : CalDate) : ChartPoint :=
  { date := d
    habitsDone := s.habits.foldl
      (fun sum h => sum + (if d ∈ h.completedDates then 1 else 0)) 0
    tasksDone := (s.todos.filter (fun t => t.completed ∧ t.createdAt = d)).length
    expensesSum := (s.expenses.filter (fun e => e.date = d)).foldl
      (fun sum e => sum + e.amount) 0
    sleepSum := (s.sleepSessions.filter (fun x => x.date = d)).foldl
      (fun sum x => sum + x.duration) 0 }

/-- `getChartData` (lines 314-347): the loop runs `i = 6, 5, ..., 0`,
pushing the record for the day `today - i`. -/
def getChartData (today : CalDate) (s : Store) : List ChartPoint :=
  ((List.range 7).reverse).map (fun (i : Nat) => chartPointFor s (today - (i : Int)))

/-! ### Operation sequences

Each constructor records the wall-clock readings the UI action takes at
call time, so a sequence of operations is a pure function of the clock
values observed at each call. -/

/-- A user action on the loans collection. -/
inductive LoanOp where
  | add (now : Time) (personName : String) (amount : ℚ) (note : String)
  | toggleReturn (now : Time) (id : Int)
deriving DecidableEq, Repr

/-- Run one loan action against the store. -/
def applyLoanOp (op : LoanOp) (s : Store) : Store :=
  match op with
  | .add now personName amount note => addLoan now personName amount note s
  | .toggleReturn now id => toggleLoanReturn now id s

/-- Run a sequence of loan actions, oldest first. -/
def runLoanOps (ops : List LoanOp) (s : Store) : Store :=
  ops.foldl (fun s op => applyLoanOp op s) s

/-- A creation action on the habits or todos collection (the two cited
`add` mutators); the recorded `Time` is the `Date.now()` reading that
becomes the id. -/
inductive AddOp where
  | habit (now : Time) (name : String)
  | todo (now : Time) (today : CalDate) (task : String)
deriving DecidableEq, Repr

/-- The `Date.now()` reading of a creation action. -/
def AddOp.time : AddOp → Time
  | .habit now _ => now
  | .todo now _ _ => now

/-- Run one creation action against the store. -/
def applyAddOp (op : AddOp) (s : Store) : Store :=
  match op with
  | .habit now name => addHabit now name s
  | .todo now today task => addTodo now today task s

/-- Run a sequence of creation actions, oldest first. -/
def runAddOps (ops : List AddOp) (s : Store) : Store :=
  ops.foldl (fun s op => applyAddOp op s) s

/-- The effect on a single habit of `n` successive `toggleHabit` calls
within one day (the per-element trace of iterating `toggleHabit`). -/
def habitIter (today : CalDate) (id : Int) : Nat → Habit → Habit
  | 0, h => h
  | n + 1, h => habitIter today id n (toggleHabitEntry today id h).1

/-- The total reward paid out to a single habit by `n` successive
`toggleHabit` calls within one day. -/
def rewardIter (today : CalDate) (id : Int) : Nat → Habit → Int
  | 0, _ => 0
  | n + 1, h =>
      (toggleHabitEntry today id h).2 + rewardIter today id n (toggleHabitEntry today id h).1

/-! ### General list lemmas -/

lemma foldl_add_eq_sum {α M : Type} [AddCommMonoid M] (f : α → M) :
    ∀ (l : List α) (a : M), l.foldl (fun acc x => acc + f x) a = a + (l.map f).sum
  | [], a => by simp
  | x :: xs, a => by
      rw [List.foldl_cons, List.map_cons, List.sum_cons, foldl_add_eq_sum f xs (a + f x),
        add_assoc]

lemma sum_map_filter_split {α M : Type} [AddCommMonoid M] (f : α → M) (p : α → Bool) :
    ∀ l : List α,
      ((l.filter p).map f).sum + ((l.filter (fun x => !p x)).map f).sum = (l.map f).sum
  | [] => by simp
  | x :: xs => by
      by_cases hx : p x = true <;>
        simp [List.filter_cons, hx, ← sum_map_filter_split f p xs, add_assoc, add_left_comm]

lemma foldl_count_eq_filter_length {α : Type} (p : α → Prop) [DecidablePred p] :
    ∀ (l : List α) (a : Nat),
      l.foldl (fun n x => n + if p x then 1 else 0) a = a + (l.filter (fun x => p x)).length
  | [], a => by simp
  | x :: xs, a => by
      by_cases hx : p x <;>
        simp [List.filter_cons, hx, foldl_count_eq_filter_length p xs, add_assoc,
          Nat.add_comm]

lemma not_mem_map_ids {α : Type} (f : α → Int) (l : List α) (id : Int)
    (h : id ∉ l.map f) : ∀ x ∈ l, f x ≠ id := by
  intro x hx hEq
  exact h (List.mem_map.mpr ⟨x, hx, hEq⟩)

lemma filter_id_ne_of_not_mem {α : Type} (f : α → Int) (l : List α) (id : Int)
    (h : id ∉ l.map f) : l.filter (fun x => f x ≠ id) = l :=
  List.filter_eq_self.mpr (by
    intro x hx
    simpa using not_mem_map_ids f l id h x hx)

lemma sublist_map_of_filterMap {α β : Type} (f : α → Option β) (g : α → β)
    (hf : ∀ a b, f a = some b → b = g a) :
    ∀ l : List α, List.Sublist (l.filterMap f) (l.map g)
  | [] => List.Sublist.slnil
  | x :: xs => by
      rw [List.filterMap_cons, List.map_cons]
      cases hfx : f x with
      | none => exact (sublist_map_of_filterMap f g hf xs).cons (g x)
      | some b =>
          rw [hf x b hfx]
          exact (sublist_map_of_filterMap f g hf xs).cons₂ (g x)

/-! ### Lemmas about the habit toggle -/

lemma toggleHabitEntry_ne (today : CalDate) (id : Int) (h : Habit) (hid : h.id ≠ id) :
    toggleHabitEntry today id h = (h, 0) := by
  simp [toggleHabitEntry, hid]

lemma toggleHabitEntry_fst_id (today : CalDate) (id : Int) (h : Habit) :
    (toggleHabitEntry today id h).1.id = h.id := by
  unfold toggleHabitEntry
  split <;> [skip; rfl]
  split <;> rfl

lemma toggleHabitEntry_mem_flip (today : CalDate) (id : Int) (h : Habit)
    (hid : h.id = id) :
    (today ∈ (toggleHabitEntry today id h).1.completedDates) ↔
      ¬ (today ∈ h.completedDates) := by
  by_cases hm : today ∈ h.completedDates <;> simp [toggleHabitEntry, hid, hm]

lemma toggleHabitEntry_snd (today : CalDate) (id : Int) (h : Habit)
    (hid : h.id = id) :
    (toggleHabitEntry today id h).2 = if today ∈ h.completedDates then 0 else 10 := by
  by_cases hm : today ∈ h.completedDates <;> simp [toggleHabitEntry, hid, hm]

lemma toggleHabit_not_mem (today : CalDate) (id : Int) (s : Store)
    (hid : id ∉ s.habits.map Habit.id) : toggleHabit today id s = s := by
  have hne := not_mem_map_ids Habit.id s.habits id hid
  have h1 : s.habits.map (fun h => (toggleHabitEntry today id h).1) = s.habits := by
    have heq : s.habits.map (fun h => (toggleHabitEntry today id h).1)
        = s.habits.map (fun h => h) :=
      List.map_congr_left (fun x hx => by rw [toggleHabitEntry_ne today id x (hne x hx)])
    simpa using heq
  have h2 : (s.habits.map (fun h => (toggleHabitEntry today id h).2)).sum = 0 := by
    apply List.sum_eq_zero
    intro x hx
    obtain ⟨a, ha, rfl⟩ := List.mem_map.mp hx
    rw [toggleHabitEntry_ne today id a (hne a ha)]
  simp [toggleHabit, h1, h2]

lemma toggleHabit_framed (today : CalDate) (id : Int) (s : Store)
    (pre post : List Habit) (h : Habit)
    (hs : s.habits = pre ++ h :: post)
    (hpre : ∀ x ∈ pre, x.id ≠ id) (hpost : ∀ x ∈ post, x.id ≠ id) :
    toggleHabit today id s =
      { s with habits := pre ++ (toggleHabitEntry today id h).1 :: post
               rewards := s.rewards + (toggleHabitEntry today id h).2 } := by
  have hpre1 : pre.map (fun x => (toggleHabitEntry today id x).1) = pre := by
    have heq : pre.map (fun x => (toggleHabitEntry today id x).1) = pre.map (fun x => x) :=
      List.map_congr_left (fun x hx => by rw [toggleHabitEntry_ne today id x (hpre x hx)])
    simpa using heq
  have hpost1 : post.map (fun x => (toggleHabitEntry today id x).1) = post := by
    have heq : post.map (fun x => (toggleHabitEntry today id x).1) = post.map (fun x => x) :=
      List.map_congr_left (fun x hx => by rw [toggleHabitEntry_ne today id x (hpost x hx)])
    simpa using heq
  have hpre2 : (pre.map (fun x => (toggleHabitEntry today id x).2)).sum = 0 := by
    apply List.sum_eq_zero
    intro x hx
    obtain ⟨a, ha, rfl⟩ := List.mem_map.mp hx
    rw [toggleHabitEntry_ne today id a (hpre a ha)]
  have hpost2 : (post.map (fun x => (toggleHabitEntry today id x).2)).sum = 0 := by
    apply List.sum_eq_zero
    intro x hx
    obtain ⟨a, ha, rfl⟩ := List.mem_map.mp hx
    rw [toggleHabitEntry_ne today id a (hpost a ha)]
  unfold toggleHabit
  rw [hs]
  simp [hpre1, hpost1, hpre2, hpost2]

/-! ### Lemmas about the todo toggle -/

lemma toggleTodoEntry_ne (id : Int) (t : Todo) (hid : t.id ≠ id) :
    toggleTodoEntry id t = (t, 0) := by
  simp [toggleTodoEntry, hid]

lemma toggleTodoEntry_eq (id : Int) (t : Todo) (hid : t.id = id) :
    toggleTodoEntry id t =
      ({ t with completed := !t.completed }, if t.completed then 0 else 5) := by
  cases hc : t.completed <;> simp [toggleTodoEntry, hid, hc]

lemma toggleTodo_not_mem (id : Int) (s : Store)
    (hid : id ∉ s.todos.map Todo.id) : toggleTodo id s = s := by
  have hne := not_mem_map_ids Todo.id s.todos id hid
  have h1 : s.todos.map (fun t => (toggleTodoEntry id t).1) = s.todos := by
    have heq : s.todos.map (fun t => (toggleTodoEntry id t).1) = s.todos.map (fun t => t) :=
      List.map_congr_left (fun x hx => by rw [toggleTodoEntry_ne id x (hne x hx)])
    simpa using heq
  have h2 : (s.todos.map (fun t => (toggleTodoEntry id t).2)).sum = 0 := by
    apply List.sum_eq_zero
    intro x hx
    obtain ⟨a, ha, rfl⟩ := List.mem_map.mp hx
    rw [toggleTodoEntry_ne id a (hne a ha)]
  simp [toggleTodo, h1, h2]

lemma toggleTodo_framed (id : Int) (s : Store)
    (pre post : List Todo) (t : Todo)
    (hs : s.todos = pre ++ t :: post) (ht : t.id = id)
    (hpre : ∀ x ∈ pre, x.id ≠ id) (hpost : ∀ x ∈ post, x.id ≠ id) :
    toggleTodo id s =
      { s with todos := pre ++ { t with completed := !t.completed } :: post
               rewards := s.rewards + (if t.completed then 0 else 5) } := by
  have hpre1 : pre.map (fun x => (toggleTodoEntry id x).1) = pre := by
    have heq : pre.map (fun x => (toggleTodoEntry id x).1) = pre.map (fun x => x) :=
      List.map_congr_left (fun x hx => by rw [toggleTodoEntry_ne id x (hpre x hx)])
    simpa using heq
  have hpost1 : post.map (fun x => (toggleTodoEntry id x).1) = post := by
    have heq : post.map (fun x => (toggleTodoEntry id x).1) = post.map (fun x => x) :=
      List.map_congr_left (fun x hx => by rw [toggleTodoEntry_ne id x (hpost x hx)])
    simpa using heq
  have hpre2 : (pre.map (fun x => (toggleTodoEntry id x).2)).sum = 0 := by
    apply List.sum_eq_zero
    intro x hx
    obtain ⟨a, ha, rfl⟩ := List.mem_map.mp hx
    rw [toggleTodoEntry_ne id a (hpre a ha)]
  have hpost2 : (post.map (fun x => (toggleTodoEntry id x).2)).sum = 0 := by
    apply List.sum_eq_zero
    intro x hx
    obtain ⟨a, ha, rfl⟩ := List.mem_map.mp hx
    rw [toggleTodoEntry_ne id a (hpost a ha)]
  unfold toggleTodo
  rw [hs]
  simp [hpre1, hpost1, hpre2, hpost2, toggleTodoEntry_eq id t ht]

/-! ### Lemmas about loans -/

lemma toggleLoanReturn_not_mem (now : Time) (id : Int) (s : Store)
    (hid : id ∉ s.loans.map Loan.id) : toggleLoanReturn now id s = s := by
  have hne := not_mem_map_ids Loan.id s.loans id hid
  have h1 : s.loans.map (fun l =>
      if l.id = id then
        { l with returned := !l.returned
                 dateReturned := if !l.returned then some now else none }
      else l) = s.loans := by
    have heq : s.loans.map (fun l =>
        if l.id = id then
          { l with returned := !l.returned
                   dateReturned := if !l.returned then some now else none }
        else l) = s.loans.map (fun l => l) :=
      List.map_congr_left (fun x hx => by simp [hne x hx])
    simpa using heq
  unfold toggleLoanReturn
  rw [h1]

lemma deleteItem_not_mem (ty : ItemType) (id : Int) (s : Store)
    (hid : id ∉ collectionIds ty s) : deleteItem ty id s = s := by
  cases ty <;>
    simp only [deleteItem, collectionIds] at hid ⊢ <;>
    rw [filter_id_ne_of_not_mem _ _ id hid]

lemma applyLoanOp_linked (op : LoanOp) (s : Store)
    (hs : ∀ l ∈ s.loans, l.returned = l.dateReturned.isSome) :
    ∀ l ∈ (applyLoanOp op s).loans, l.returned = l.dateReturned.isSome := by
  cases op with
  | add now p a nt =>
      intro l hl
      simp only [applyLoanOp, addLoan, List.mem_append, List.mem_singleton] at hl
      rcases hl with hl | hl
      · exact hs l hl
      · subst hl; rfl
  | toggleReturn now id =>
      intro l hl
      simp only [applyLoanOp, toggleLoanReturn, List.mem_map] at hl
      obtain ⟨a, ha, rfl⟩ := hl
      by_cases hid : a.id = id
      · cases hr : a.returned <;> simp [hid, hr]
      · simp only [hid, if_false]
        exact hs a ha

lemma runLoanOps_linked : ∀ (ops : List LoanOp) (s : Store),
    (∀ l ∈ s.loans, l.returned = l.dateReturned.isSome) →
    ∀ l ∈ (runLoanOps ops s).loans, l.returned = l.dateReturned.isSome
  | [], _, hs => hs
  | op :: ops, s, hs =>
      runLoanOps_linked ops (applyLoanOp op s) (applyLoanOp_linked op s hs)

lemma toggleLoanReturn_loans (now : Time) (id : Int) (s : Store) :
    (toggleLoanReturn now id s).loans = s.loans.map (fun l =>
      if l.id = id then
        (if l.returned then { l with returned := false, dateReturned := none }
         else { l with returned := true, dateReturned := some now })
      else l) := by
  unfold toggleLoanReturn
  apply List.map_congr_left
  intro x _
  by_cases hid : x.id = id
  · cases hr : x.returned <;> simp [hid, hr]
  · simp [hid]

/-! ### Lemmas about iterated habit toggles -/

lemma habitIter_id (today : CalDate) (id : Int) :
    ∀ (n : Nat) (h : Habit), (habitIter today id n h).id = h.id
  | 0, _ => rfl
  | n + 1, h => by
      rw [habitIter, habitIter_id today id n, toggleHabitEntry_fst_id]

lemma habitIter_mem (today : CalDate) (id : Int) :
    ∀ (n : Nat) (h : Habit), h.id = id →
      ((today ∈ (habitIter today id n h).completedDates) ↔
        Xor' (today ∈ h.completedDates) (Odd n))
  | 0, h, _ => by simp [habitIter, Xor', Nat.odd_iff]
  | n + 1, h, hid => by
      have hid' : (toggleHabitEntry today id h).1.id = id := by
        rw [toggleHabitEntry_fst_id]; exact hid
      rw [habitIter, habitIter_mem today id n _ hid',
        toggleHabitEntry_mem_flip today id h hid, Nat.odd_add_one]
      by_cases hm : today ∈ h.completedDates <;> by_cases ho : Odd n <;>
        simp [Xor', hm, ho]

lemma rewardIter_eq (today : CalDate) (id : Int) :
    ∀ (n : Nat) (h : Habit), h.id = id →
      rewardIter today id n h =
        10 * (if today ∈ h.completedDates
          then ((n / 2 : Nat) : Int) else (((n + 1) / 2 : Nat) : Int))
  | 0, h, _ => by simp [rewardIter]
  | n + 1, h, hid => by
      have hid' : (toggleHabitEntry today id h).1.id = id := by
        rw [toggleHabitEntry_fst_id]; exact hid
      rw [rewardIter, rewardIter_eq today id n _ hid', toggleHabitEntry_snd today id h hid]
      by_cases hm : today ∈ h.completedDates
      · have hm' : ¬ today ∈ (toggleHabitEntry today id h).1.completedDates := by
          rw [toggleHabitEntry_mem_flip today id h hid]
          exact fun c => c hm
        rw [if_pos hm, if_pos hm, if_neg hm', zero_add]
      · have hm' : today ∈ (toggleHabitEntry today id h).1.completedDates :=
          (toggleHabitEntry_mem_flip today id h hid).mpr hm
        rw [if_neg hm, if_neg hm, if_pos hm']
        have h2 : ((n + 1 + 1) / 2 : Nat) = n / 2 + 1 := by omega
        rw [h2]
        push_cast
        ring

lemma toggleHabit_iterate (today : CalDate) (id : Int) :
    ∀ (n : Nat) (s : Store) (pre post : List Habit) (h : Habit),
      s.habits = pre ++ h :: post → h.id = id →
      (∀ x ∈ pre, x.id ≠ id) → (∀ x ∈ post, x.id ≠ id) →
      (toggleHabit today id)^[n] s =
        { s with habits := pre ++ habitIter today id n h :: post
                 rewards := s.rewards + rewardIter today id n h }
  | 0, s, pre, post, h, hs, _, _, _ => by
      simp [habitIter, rewardIter, ← hs]
  | n + 1, s, pre, post, h, hs, hid, hpre, hpost => by
      have hid' : (toggleHabitEntry today id h).1.id = id := by
        rw [toggleHabitEntry_fst_id]; exact hid
      rw [Function.iterate_succ_apply, toggleHabit_framed today id s pre post h hs hpre hpost,
        toggleHabit_iterate today id n _ pre post (toggleHabitEntry today id h).1 rfl hid'
          hpre hpost]
      simp [habitIter, rewardIter, add_assoc]

/-! ### Lemmas about creation sequences -/

/-- The habit appended by a creation action, if any. -/
def AddOp.newHabit : AddOp → Option Habit
  | .habit now name => some { id := now, name := name, completedDates := [], createdAt := now }
  | .todo _ _ _ => none

/-- The todo appended by a creation action, if any. -/
def AddOp.newTodo : AddOp → Option Todo
  | .habit _ _ => none
  | .todo now today task =>
      some { id := now, task := task, completed := false, photo := none, createdAt := today }

lemma runAddOps_habits : ∀ (ops : List AddOp) (s : Store),
    (runAddOps ops s).habits = s.habits ++ ops.filterMap AddOp.newHabit
  | [], s => by simp [runAddOps]
  | op :: ops, s => by
      have hstep : runAddOps (op :: ops) s = runAddOps ops (applyAddOp op s) := rfl
      rw [hstep, runAddOps_habits ops]
      cases op <;>
        simp [applyAddOp, addHabit, addTodo, AddOp.newHabit, List.filterMap_cons]

lemma runAddOps_todos : ∀ (ops : List AddOp) (s : Store),
    (runAddOps ops s).todos = s.todos ++ ops.filterMap AddOp.newTodo
  | [], s => by simp [runAddOps]
  | op :: ops, s => by
      have hstep : runAddOps (op :: ops) s = runAddOps ops (applyAddOp op s) := rfl
      rw [hstep, runAddOps_todos ops]
      cases op <;>
        simp [applyAddOp, addHabit, addTodo, AddOp.newTodo, List.filterMap_cons]

lemma habit_ids_sublist_times (ops : List AddOp) :
    List.Sublist ((ops.filterMap AddOp.newHabit).map Habit.id) (ops.map AddOp.time) := by
  rw [List.map_filterMap]
  apply sublist_map_of_filterMap
  intro a b hab
  cases a with
  | habit now name => simpa [AddOp.newHabit] using hab.symm
  | todo now today task => simp [AddOp.newHabit] at hab

lemma todo_ids_sublist_times (ops : List AddOp) :
    List.Sublist ((ops.filterMap AddOp.newTodo).map Todo.id) (ops.map AddOp.time) := by
  rw [List.map_filterMap]
  apply sublist_map_of_filterMap
  intro a b hab
  cases a with
  | habit now name => simp [AddOp.newTodo] at hab
  | todo now today task => simpa [AddOp.newTodo] using hab.symm

/-! ### The 7-day chart -/

/-- The record §4.3 of the spec describes for one day of
`last7DaysSeries`, written from the spec text (count of habits done that
day, count of completed tasks created that day, sums of expense amounts
and sleep durations that day) for comparison with `chartPointFor`. -/
def specChartPoint (s : Store) (d : CalDate) : ChartPoint :=
  { date := d
    habitsDone := (s.habits.filter (fun h => d ∈ h.completedDates)).length
    tasksDone := (s.todos.filter (fun t => t.completed ∧ t.createdAt = d)).length
    expensesSum := ((s.expenses.filter (fun e => e.date = d)).map Expense.amount).sum
    sleepSum := ((s.sleepSessions.filter (fun x => x.date = d)).map SleepSession.duration).sum }

lemma chartPointFor_eq_spec (s : Store) (d : CalDate) :
    chartPointFor s d = specChartPoint s d := by
  unfold chartPointFor specChartPoint
  congr 1
  · rw [foldl_count_eq_filter_length (fun h => d ∈ h.completedDates) s.habits 0, Nat.zero_add]
  · rw [foldl_add_eq_sum Expense.amount (s.expenses.filter (fun e => e.date = d)) 0, zero_add]
  · rw [foldl_add_eq_sum SleepSession.duration
      (s.sleepSessions.filter (fun x => x.date = d)) 0, zero_add]

lemma loan_amount_split (ls : List Loan) :
    ((ls.filter (fun l => !l.returned)).map Loan.amount).sum
      + ((ls.filter (fun l => l.returned)).map Loan.amount).sum
      = (ls.map Loan.amount).sum := by
  induction ls with
  | nil => simp
  | cons x xs ih => cases hr : x.returned <;> simp [List.filter_cons, hr, ← ih] <;> ring

/-! ## The claims -/

/-- C3: after any sequence of `addLoan`/`toggleLoanReturn` operations
starting from an empty loans collection, `returned = true` iff
`dateReturned` is a non-null timestamp and `returned = false` iff it is
null; moreover `toggleLoanReturn` sets `dateReturned` to the current time
on the false→true transition and clears it on the true→false transition. -/
theorem loan_returned_iff_dateReturned (ops : List LoanOp) (s : Store)
    (h0 : s.loans = []) :
    (∀ l ∈ (runLoanOps ops s).loans,
      (l.returned = true ↔ l.dateReturned.isSome = true) ∧
      (l.returned = false ↔ l.dateReturned = none)) ∧
    (∀ (now : Time) (id : Int),
      (toggleLoanReturn now id (runLoanOps ops s)).loans
        = (runLoanOps ops s).loans.map (fun l =>
            if l.id = id then
              (if l.returned then { l with returned := false, dateReturned := none }
               else { l with returned := true, dateReturned := some now })
            else l)) := by
  constructor
  · intro l hl
    have hlink : l.returned = l.dateReturned.isSome :=
      runLoanOps_linked ops s (by rw [h0]; intro x hx; cases hx) l hl
    rw [hlink]
    cases l.dateReturned <;> simp
  · intro now id
    exact toggleLoanReturn_loans now id _

/-- Witness for `loan_returned_iff_dateReturned`: the §8 scenario, one
loan added and then toggled once. -/
theorem loan_returned_iff_dateReturned_witness :
    (∀ l ∈ (runLoanOps [LoanOp.add 1 "Sam" 100 "lunch", LoanOp.toggleReturn 2 1]
        emptyStore).loans,
      (l.returned = true ↔ l.dateReturned.isSome = true) ∧
      (l.returned = false ↔ l.dateReturned = none)) ∧
    (∀ (now : Time) (id : Int),
      (toggleLoanReturn now id (runLoanOps
          [LoanOp.add 1 "Sam" 100 "lunch", LoanOp.toggleReturn 2 1] emptyStore)).loans
        = (runLoanOps [LoanOp.add 1 "Sam" 100 "lunch", LoanOp.toggleReturn 2 1]
            emptyStore).loans.map (fun l =>
            if l.id = id then
              (if l.returned then { l with returned := false, dateReturned := none }
               else { l with returned := true, dateReturned := some now })
            else l)) :=
  loan_returned_iff_dateReturned
    [LoanOp.add 1 "Sam" 100 "lunch", LoanOp.toggleReturn 2 1] emptyStore rfl

/-- C4: for every loans collection reachable by `addLoan` and
`toggleLoanReturn` calls, the pending amount equals total lent minus
total returned. -/
theorem pending_eq_lent_sub_returned (ops : List LoanOp) (s0 : Store) :
    pendingLoansAmount (runLoanOps ops s0).loans
      = totalLent (runLoanOps ops s0).loans
        - totalReturned (runLoanOps ops s0).loans := by
  unfold pendingLoansAmount totalLent totalReturned
  rw [foldl_add_eq_sum, foldl_add_eq_sum, foldl_add_eq_sum]
  simp only [zero_add]
  linarith [loan_amount_split (runLoanOps ops s0).loans]

/-- C5: importing the document produced by export restores a store equal
to the exported one (and the import path reports no error). -/
theorem import_export_roundtrip (now : Time) (s : Store) :
    importData (ImportPayload.object (allData now s)) s = (s, false) := by
  simp [importData, setAllData, allData]

/-- C7: an import payload that fails to parse, or parses to a non-object,
surfaces the format error and leaves every field of the store exactly as
it was. -/
theorem import_malformed_noop (p : ImportPayload) (s : Store)
    (h : p = ImportPayload.malformed ∨ p = ImportPayload.nonObject) :
    importData p s = (s, true) := by
  rcases h with h | h <;> subst h <;> rfl

/-- Witness for `import_malformed_noop`: a malformed payload against the
empty store. -/
theorem import_malformed_noop_witness :
    importData ImportPayload.malformed emptyStore = (emptyStore, true) :=
  import_malformed_noop ImportPayload.malformed emptyStore (Or.inl rfl)

/-- C6: toggling a uniquely-identified todo flips exactly its `completed`
flag, leaves every other todo in place, and adds 5 reward points exactly
when the todo was previously incomplete. -/
theorem todo_toggle_reward (id : Int) (s : Store) (pre post : List Todo) (t : Todo)
    (hs : s.todos = pre ++ t :: post) (ht : t.id = id)
    (hpre : ∀ x ∈ pre, x.id ≠ id) (hpost : ∀ x ∈ post, x.id ≠ id) :
    (toggleTodo id s).todos = pre ++ { t with completed := !t.completed } :: post ∧
    (toggleTodo id s).rewards = s.rewards + (if t.completed then 0 else 5) := by
  rw [toggleTodo_framed id s pre post t hs ht hpre hpost]
  exact ⟨rfl, rfl⟩

/-- The todo used to instantiate `todo_toggle_reward`. -/
def sampleTodo : Todo :=
  { id := 1, task := "laundry", completed := false, photo := none, createdAt := 0 }

/-- The store used to instantiate `todo_toggle_reward`. -/
def sampleTodoStore : Store := { emptyStore with todos := [sampleTodo] }

/-- Witness for `todo_toggle_reward`: one incomplete todo, toggled. -/
theorem todo_toggle_reward_witness :
    (toggleTodo 1 sampleTodoStore).todos
        = [] ++ { sampleTodo with completed := !sampleTodo.completed } :: [] ∧
    (toggleTodo 1 sampleTodoStore).rewards
        = sampleTodoStore.rewards + (if sampleTodo.completed then 0 else 5) :=
  todo_toggle_reward 1 sampleTodoStore [] [] sampleTodo rfl rfl
    (by intro x hx; cases hx) (by intro x hx; cases hx)

/-- C10: the three toggles and `deleteItem`, called with an id that occurs
nowhere in the targeted collection, leave the whole store (every
collection and the reward counter) unchanged and raise no error. -/
theorem absent_id_ops_noop (s : Store) (today : CalDate) (now : Time) (id : Int)
    (ty : ItemType) :
    (id ∉ s.habits.map Habit.id → toggleHabit today id s = s) ∧
    (id ∉ s.todos.map Todo.id → toggleTodo id s = s) ∧
    (id ∉ s.loans.map Loan.id → toggleLoanReturn now id s = s) ∧
    (id ∉ collectionIds ty s → deleteItem ty id s = s) :=
  ⟨toggleHabit_not_mem today id s, toggleTodo_not_mem id s,
    toggleLoanReturn_not_mem now id s, deleteItem_not_mem ty id s⟩

/-- A populated store used to instantiate `absent_id_ops_noop`. -/
def sampleMixedStore : Store :=
  { emptyStore with
    habits := [{ id := 1, name := "water", completedDates := [0], createdAt := 0 }]
    todos := [sampleTodo]
    loans := [{ id := 3, personName := "Sam", amount := 100, note := ""
                returned := false, dateGiven := 0, dateReturned := none }] }

/-- Witness for `absent_id_ops_noop`: id 9 occurs in no collection of the
sample store. -/
theorem absent_id_ops_noop_witness :
    toggleHabit 0 9 sampleMixedStore = sampleMixedStore ∧
    toggleTodo 9 sampleMixedStore = sampleMixedStore ∧
    toggleLoanReturn 0 9 sampleMixedStore = sampleMixedStore ∧
    deleteItem ItemType.habit 9 sampleMixedStore = sampleMixedStore :=
  ⟨(absent_id_ops_noop sampleMixedStore 0 0 9 ItemType.habit).1 (by decide),
    (absent_id_ops_noop sampleMixedStore 0 0 9 ItemType.habit).2.1 (by decide),
    (absent_id_ops_noop sampleMixedStore 0 0 9 ItemType.habit).2.2.1 (by decide),
    (absent_id_ops_noop sampleMixedStore 0 0 9 ItemType.habit).2.2.2 (by decide)⟩

/-- A store whose single habit already has today (day 0) in its completion
set, as left behind by an earlier toggle the same day or by an import. -/
def primedHabitStore : Store :=
  { emptyStore with
    habits := [{ id := 1, name := "water", completedDates := [0], createdAt := 0 }] }

/-- C1 (counterexample): in a store whose habit already has today in its
completion set, one `toggleHabit` call — an odd number of calls — leaves
today's date absent, so the final membership is not the parity of the
number of calls. -/
theorem habit_toggle_parity_cex :
    Odd 1 ∧ ∀ h ∈ ((toggleHabit 0 1)^[1] primedHabitStore).habits,
      (0 : CalDate) ∉ h.completedDates := by
  constructor
  · decide
  · decide

/-- C1 (amended): a sequence of `n` same-day `toggleHabit` calls on a
uniquely-identified habit flips today's membership `n` times — the final
membership is the initial membership XOR the parity of `n` — and the
reward counter increases by exactly 10 for each call that adds today's
date (`⌈n/2⌉` of the calls when today starts absent, `⌊n/2⌋` when it
starts present) and by 0 for each call that removes it. -/
theorem habit_toggle_parity_reward (today : CalDate) (id : Int) (s : Store)
    (n : Nat) (pre post : List Habit) (h : Habit)
    (hs : s.habits = pre ++ h :: post) (hid : h.id = id)
    (hpre : ∀ x ∈ pre, x.id ≠ id) (hpost : ∀ x ∈ post, x.id ≠ id) :
    ((toggleHabit today id)^[n] s).habits = pre ++ habitIter today id n h :: post ∧
    ((today ∈ (habitIter today id n h).completedDates) ↔
      Xor' (today ∈ h.completedDates) (Odd n)) ∧
    ((toggleHabit today id)^[n] s).rewards =
      s.rewards + 10 * (if today ∈ h.completedDates
        then ((n / 2 : Nat) : Int) else (((n + 1) / 2 : Nat) : Int)) := by
  have hit := toggleHabit_iterate today id n s pre post h hs hid hpre hpost
  refine ⟨?_, habitIter_mem today id n h hid, ?_⟩
  · rw [hit]
  · rw [hit, rewardIter_eq today id n h hid]

/-- The habit used to instantiate `habit_toggle_parity_reward`. -/
def sampleHabit : Habit := { id := 1, name := "water", completedDates := [], createdAt := 0 }

/-- The store used to instantiate `habit_toggle_parity_reward`. -/
def sampleHabitStore : Store := { emptyStore with habits := [sampleHabit] }

/-- Witness for `habit_toggle_parity_reward`: two same-day toggles on a
habit that starts with today absent. -/
theorem habit_toggle_parity_reward_witness :
    ((toggleHabit 0 1)^[2] sampleHabitStore).habits
        = [] ++ habitIter 0 1 2 sampleHabit :: [] ∧
    (((0 : CalDate) ∈ (habitIter 0 1 2 sampleHabit).completedDates) ↔
      Xor' ((0 : CalDate) ∈ sampleHabit.completedDates) (Odd 2)) ∧
    ((toggleHabit 0 1)^[2] sampleHabitStore).rewards =
      sampleHabitStore.rewards + 10 * (if (0 : CalDate) ∈ sampleHabit.completedDates
        then ((2 / 2 : Nat) : Int) else (((2 + 1) / 2 : Nat) : Int)) :=
  habit_toggle_parity_reward 0 1 sampleHabitStore 2 [] [] sampleHabit rfl rfl
    (by intro x hx; cases hx) (by intro x hx; cases hx)

/-- A store with a nonzero reward counter, targeted by the C2
counterexample import. -/
def rewardFiveStore : Store := { emptyStore with rewards := 5 }

/-- C2 (counterexample): a document whose `rewards` key is present with
value `0` does not replace the reward counter — the store keeps its prior
value 5 — contradicting replace-whenever-the-key-is-present semantics. -/
theorem import_partial_merge_cex :
    (setAllData { rewards := some 0 } rewardFiveStore).rewards = 5 ∧ (5 : Int) ≠ 0 := by
  constructor
  · rfl
  · decide

/-- C2 (amended): import replaces exactly the store fields whose keys are
present with truthy values — a present collection (always a truthy array)
replaces the old one, a present `rewards` replaces the counter only when
nonzero, and absent keys are untouched; in particular a document
containing only a nonzero `rewards` changes only the reward counter. -/
theorem import_partial_merge (d : ImportDoc) (s : Store) (r : Int) (hr : r ≠ 0) :
    (setAllData d s).habits = d.habits.getD s.habits ∧
    (setAllData d s).todos = d.todos.getD s.todos ∧
    (setAllData d s).expenses = d.expenses.getD s.expenses ∧
    (setAllData d s).notes = d.notes.getD s.notes ∧
    (setAllData d s).memories = d.memories.getD s.memories ∧
    (setAllData d s).loans = d.loans.getD s.loans ∧
    (setAllData d s).sleepSessions = d.sleepSessions.getD s.sleepSessions ∧
    ((d.rewards = none ∨ d.rewards = some 0) → (setAllData d s).rewards = s.rewards) ∧
    (∀ v : Int, d.rewards = some v → v ≠ 0 → (setAllData d s).rewards = v) ∧
    setAllData { rewards := some r } s = { s with rewards := r } := by
  refine ⟨?_, ?_, ?_, ?_, ?_, ?_, ?_, ?_, ?_, ?_⟩
  · cases hd : d.habits <;> simp [setAllData, hd]
  · cases hd : d.todos <;> simp [setAllData, hd]
  · cases hd : d.expenses <;> simp [setAllData, hd]
  · cases hd : d.notes <;> simp [setAllData, hd]
  · cases hd : d.memories <;> simp [setAllData, hd]
  · cases hd : d.loans <;> simp [setAllData, hd]
  · cases hd : d.sleepSessions <;> simp [setAllData, hd]
  · rintro (hnone | hzero)
    · simp [setAllData, hnone]
    · simp [setAllData, hzero]
  · intro v hv hvne
    simp [setAllData, hv, hvne]
  · simp [setAllData, hr]

/-- Witness for `import_partial_merge`: a document carrying only
`rewards = 7` imported into the empty store. -/
theorem import_partial_merge_witness :
    (setAllData { rewards := some 7 } emptyStore).habits
        = (ImportDoc.habits { rewards := some 7 }).getD emptyStore.habits ∧
    (setAllData { rewards := some 7 } emptyStore).todos
        = (ImportDoc.todos { rewards := some 7 }).getD emptyStore.todos ∧
    (setAllData { rewards := some 7 } emptyStore).expenses
        = (ImportDoc.expenses { rewards := some 7 }).getD emptyStore.expenses ∧
    (setAllData { rewards := some 7 } emptyStore).notes
        = (ImportDoc.notes { rewards := some 7 }).getD emptyStore.notes ∧
    (setAllData { rewards := some 7 } emptyStore).memories
        = (ImportDoc.memories { rewards := some 7 }).getD emptyStore.memories ∧
    (setAllData { rewards := some 7 } emptyStore).loans
        = (ImportDoc.loans { rewards := some 7 }).getD emptyStore.loans ∧
    (setAllData { rewards := some 7 } emptyStore).sleepSessions
        = (ImportDoc.sleepSessions { rewards := some 7 }).getD emptyStore.sleepSessions ∧
    ((ImportDoc.rewards { rewards := some 7 } = none ∨
        ImportDoc.rewards { rewards := some 7 } = some 0) →
      (setAllData { rewards := some 7 } emptyStore).rewards = emptyStore.rewards) ∧
    (∀ v : Int, ImportDoc.rewards { rewards := some 7 } = some v → v ≠ 0 →
      (setAllData { rewards := some 7 } emptyStore).rewards = v) ∧
    setAllData { rewards := some (7 : Int) } emptyStore = { emptyStore with rewards := 7 } :=
  import_partial_merge { rewards := some 7 } emptyStore 7 (by decide)

/-- C8: `getChartData` produces exactly 7 records, for the days
`today - 6, …, today` oldest first; the record for day `d` carries the
count of habits whose completion set contains `d`, the count of completed
tasks created on `d` (the filter looks only at the creation date), the sum
of expense amounts dated `d`, and the sum of sleep durations dated `d`. -/
theorem chart_last7_days (today : CalDate) (s : Store) :
    (getChartData today s).length = 7 ∧
    getChartData today s
      = (List.range 7).map (fun (j : Nat) => specChartPoint s (today - 6 + (j : Int))) := by
  constructor
  · rw [getChartData, List.length_map, List.length_reverse, List.length_range]
  · show ((List.range 7).reverse).map _ = _
    rw [show List.range 7 = [0, 1, 2, 3, 4, 5, 6] from rfl]
    simp only [List.reverse_cons, List.reverse_nil, List.nil_append, List.cons_append,
      List.map_cons, List.map_nil, chartPointFor_eq_spec, List.cons.injEq, and_true]
    refine ⟨?_, ?_, ?_, ?_, ?_, ?_, ?_⟩ <;> · congr 1; push_cast; ring

/-- C9 (counterexample): two `addHabit` calls in the same millisecond
(`Date.now()` returns 100 twice) produce two habits with the same id, so
ids are not unique within the collection. -/
theorem add_ids_unique_cex :
    ¬ ((runAddOps [AddOp.habit 100 "a", AddOp.habit 100 "b"] emptyStore).habits.map
        Habit.id).Nodup := by
  decide

/-- C9 (amended): ids are the `Date.now()` readings at creation, a
non-decreasing source; provided successive add calls fall in strictly
increasing milliseconds, the ids in each collection are strictly
increasing and unique, so creation order is recoverable from id ordering
(two adds within one millisecond share an id). -/
theorem add_ids_unique (ops : List AddOp)
    (hmono : (ops.map AddOp.time).Pairwise (· < ·)) :
    ((runAddOps ops emptyStore).habits.map Habit.id).Pairwise (· < ·) ∧
    ((runAddOps ops emptyStore).habits.map Habit.id).Nodup ∧
    ((runAddOps ops emptyStore).todos.map Todo.id).Pairwise (· < ·) ∧
    ((runAddOps ops emptyStore).todos.map Todo.id).Nodup := by
  have hh : (runAddOps ops emptyStore).habits.map Habit.id
      = (ops.filterMap AddOp.newHabit).map Habit.id := by
    rw [runAddOps_habits]
    rfl
  have ht : (runAddOps ops emptyStore).todos.map Todo.id
      = (ops.filterMap AddOp.newTodo).map Todo.id := by
    rw [runAddOps_todos]
    rfl
  have hph : ((ops.filterMap AddOp.newHabit).map Habit.id).Pairwise (· < ·) :=
    hmono.sublist (habit_ids_sublist_times ops)
  have hpt : ((ops.filterMap AddOp.newTodo).map Todo.id).Pairwise (· < ·) :=
    hmono.sublist (todo_ids_sublist_times ops)
  rw [hh, ht]
  exact ⟨hph, hph.imp (fun hlt => ne_of_lt hlt),
    hpt, hpt.imp (fun hlt => ne_of_lt hlt)⟩

/-- Witness for `add_ids_unique`: three adds at strictly increasing
clock readings. -/
theorem add_ids_unique_witness :
    ((runAddOps [AddOp.habit 1 "a", AddOp.todo 2 0 "t", AddOp.habit 3 "b"]
        emptyStore).habits.map Habit.id).Pairwise (· < ·) ∧
    ((runAddOps [AddOp.habit 1 "a", AddOp.todo 2 0 "t", AddOp.habit 3 "b"]
        emptyStore).habits.map Habit.id).Nodup ∧
    ((runAddOps [AddOp.habit 1 "a", AddOp.todo 2 0 "t", AddOp.habit 3 "b"]
        emptyStore).todos.map Todo.id).Pairwise (· < ·) ∧
    ((runAddOps [AddOp.habit 1 "a", AddOp.todo 2 0 "t", AddOp.habit 3 "b"]
        emptyStore).todos.map Todo.id).Nodup :=
  add_ids_unique [AddOp.habit 1 "a", AddOp.todo 2 0 "t", AddOp.habit 3 "b"] (by decide)

end Website
